import Mathlib

/-!
Shallow embedding of the pstrs paste-sharing service core.

The embedding follows the current sources:
  * `src/routes/tests.rs` — `MockPasteStore`, the in-memory test backend
    (a `HashMap<Uuid, String>` behind a lock; the lock disappears in the
    sequential embedding, id generation becomes an explicit `freshId`
    argument standing for `Uuid::new_v4()`).
  * `src/routes/handlers.rs` — the request handlers `upload`, `retrieve`,
    `remove` (named `removeHandler` here to avoid clashing with the store
    operation).
  * `src/ext.rs` — `unwrap_or_not_found` (`unwrapOrNotFound` here; Rust's
    `Default` is modelled by Lean's `Inhabited`, whose default for `String`
    is the empty string, matching `String::default()`).
  * `src/util.rs` — `scheme`.
  * `src/highlight.rs` — `highlight`, modelled over an abstract syntect
    environment (syntect itself is an external, pre-loaded resource).
-/

namespace Pstrs

/-- Uuid values are modelled as natural numbers; the only operations the
core performs on them are equality tests and rendering to a string. -/
abbrev Uuid := Nat

/-- A paste row, from `src/paste.rs`: `pub struct Paste { id, content }`. -/
structure Paste where
  id : Uuid
  content : String
deriving DecidableEq, Repr

/-- The in-memory test backend state, from `src/routes/tests.rs`:
`entries: Mutex<HashMap<Uuid, String>>` (the lock is dropped in the
sequential embedding). -/
structure MockPasteStore where
  entries : List (Uuid × String)
deriving DecidableEq, Repr

/-- Lookup of a key in the entry list; the model of `HashMap::get`. -/
def lookupId : List (Uuid × String) → Uuid → Option String
  | [], _ => none
  | e :: es, id => if e.1 = id then some e.2 else lookupId es id

/-- Removal of every entry with the given key; the model of the key
deletion performed by `HashMap::remove` (and of the overwrite performed
by `HashMap::insert`). On a duplicate-free map it deletes at most one
entry, exactly as the hash map does. -/
def eraseId : List (Uuid × String) → Uuid → List (Uuid × String)
  | [], _ => []
  | e :: es, id => if e.1 = id then eraseId es id else e :: eraseId es id

/-- `MockPasteStore::get` from `src/routes/tests.rs`: look the id up and
wrap the stored content into a `Paste` with that id. -/
def MockPasteStore.get (s : MockPasteStore) (id : Uuid) : Option Paste :=
  (lookupId s.entries id).map (fun c => { id := id, content := c })

/-- `MockPasteStore::create` from `src/routes/tests.rs`: a fresh id is
drawn (`Uuid::new_v4()`, here the explicit `freshId` argument), the pair
is inserted, and a `Paste` built from the local id and content is
returned. -/
def MockPasteStore.create (s : MockPasteStore) (freshId : Uuid)
    (content : String) : Paste × MockPasteStore :=
  ({ id := freshId, content := content },
   { entries := (freshId, content) :: eraseId s.entries freshId })

/-- `MockPasteStore::remove` from `src/routes/tests.rs`: `HashMap::remove`
returns the previously stored content (if any), which is wrapped into a
`Paste`; the key is deleted from the map. -/
def MockPasteStore.remove (s : MockPasteStore) (id : Uuid) :
    Option Paste × MockPasteStore :=
  ((lookupId s.entries id).map (fun c => { id := id, content := c }),
   { entries := eraseId s.entries id })

/-! HTTP status codes used by the handlers, as numeric codes. -/

def statusOK : Nat := 200

def statusCREATED : Nat := 201

def statusNOT_FOUND : Nat := 404

/-- `unwrap_or_not_found` from `src/ext.rs`: `Some(content)` becomes
`(200 OK, content)`, `None` becomes `(404 NOT FOUND, T::default())`. -/
def unwrapOrNotFound {T : Type} [Inhabited T] : Option T → Nat × T
  | some content => (statusOK, content)
  | none => (statusNOT_FOUND, default)

/-- `str::contains` from `scheme` in `src/util.rs`, modelled as the
contiguous-sublist relation on the character lists. -/
def strContains (host pat : String) : Bool :=
  decide (pat.data <:+: host.data)

/-- `scheme` from `src/util.rs`: hosts containing "127.0.0.1" or
"localhost" get "http", all others "https". -/
def scheme (host : String) : String :=
  if strContains host "127.0.0.1" || strContains host "localhost" then
    "http"
  else
    "https"

/-- Rendering of a Uuid for the response URL (`paste.id` through
`format!`); the concrete digit string is irrelevant to the claims, so the
decimal rendering of the model id stands in for the hyphenated form. -/
def uuidRender (id : Uuid) : String := toString id

/-- `upload` from `src/routes/handlers.rs`: create the paste, then answer
`(CREATED, "{scheme}://{host}/{id}")`. -/
def upload (s : MockPasteStore) (freshId : Uuid) (host body : String) :
    (Nat × String) × MockPasteStore :=
  let r := s.create freshId body
  ((statusCREATED,
    scheme host ++ "://" ++ host ++ "/" ++ uuidRender r.1.id), r.2)

/-- `retrieve` from `src/routes/handlers.rs`: get the paste, project the
content, and convert the option through `unwrap_or_not_found`. -/
def retrieve (s : MockPasteStore) (id : Uuid) : Nat × String :=
  unwrapOrNotFound ((s.get id).map (fun p => p.content))

/-- `remove` handler from `src/routes/handlers.rs`: remove from the
store, map a present record to the fixed string "Deleted!", and convert
through `unwrap_or_not_found` (whose `None` arm yields the default — the
empty string). -/
def removeHandler (s : MockPasteStore) (id : Uuid) :
    (Nat × String) × MockPasteStore :=
  let r := s.remove id
  (unwrapOrNotFound (r.1.map (fun _ => "Deleted!")), r.2)

/-! Store operation traces, used to state "the id never resolves again". -/

/-- A mutating store operation (gets do not mutate and are omitted). -/
inductive StoreOp where
  | createOp (id : Uuid) (content : String)
  | removeOp (id : Uuid)
deriving DecidableEq, Repr

/-- Apply one mutating operation to the store. -/
def applyOp (s : MockPasteStore) : StoreOp → MockPasteStore
  | .createOp id c => (s.create id c).2
  | .removeOp id => (s.remove id).2

/-- Apply a sequence of mutating operations, left to right. -/
def applyOps (s : MockPasteStore) : List StoreOp → MockPasteStore
  | [] => s
  | op :: rest => applyOps (applyOp s op) rest

/-- Whether an operation creates a paste under the given id. -/
def opCreates (id : Uuid) : StoreOp → Prop
  | .createOp i _ => i = id
  | .removeOp _ => False

instance (id : Uuid) (op : StoreOp) : Decidable (opCreates id op) := by
  cases op <;> simp only [opCreates] <;> infer_instance

/-- Iterated `remove` on one id, used to state idempotent absence. -/
def removeTimes (s : MockPasteStore) (id : Uuid) : Nat → MockPasteStore
  | 0 => s
  | n + 1 => ((removeTimes s id n).remove id).2

/-! Highlighter embedding, from `src/highlight.rs`. The syntect library
(grammar table, theme table, per-line highlighting engine) is the
opaque pre-loaded resource the spec describes, so it is a parameter of
the embedding: a `SyntectEnv`. The produced output is modelled as a list
of segments, each either a color escape code inserted by the renderer or
a run of content text; rendering concatenates them all, stripping keeps
only the text runs (the "modulo color codes" reading of the spec). -/

/-- One piece of highlighter output: an ANSI color code inserted by the
escape step, or a run of text coming from the content. -/
inductive Seg where
  | colorCode (s : String)
  | text (s : String)
deriving DecidableEq, Repr

/-- Foreground color of a styled region (syntect's `Style`, restricted to
what `as_24_bit_terminal_escaped(_, false)` consumes). -/
structure Style where
  r : Nat
  g : Nat
  b : Nat
deriving DecidableEq, Repr

/-- The escape code emitted by `as_24_bit_terminal_escaped` for one
styled region: the 24-bit foreground color sequence. -/
def ansiOfStyle (st : Style) : String :=
  "\x1b[38;2;" ++ toString st.r ++ ";" ++ toString st.g ++ ";"
    ++ toString st.b ++ "m"

/-- The color reset code appended after each highlighted line. -/
def resetCode : String := "\x1b[0m"

/-- `as_24_bit_terminal_escaped(ranges, false)`: per styled region, its
color code followed by its text. -/
def escapeSegs (ranges : List (Style × String)) : List Seg :=
  (ranges.map (fun r => [Seg.colorCode (ansiOfStyle r.1), Seg.text r.2])).flatten

/-- Render segments to the final output string. -/
def renderSegs : List Seg → String
  | [] => ""
  | Seg.colorCode s :: rest => s ++ renderSegs rest
  | Seg.text s :: rest => s ++ renderSegs rest

/-- Strip the inserted color codes from the output, keeping the text. -/
def stripSegs : List Seg → String
  | [] => ""
  | Seg.colorCode _ :: rest => stripSegs rest
  | Seg.text s :: rest => s ++ stripSegs rest

/-- Concatenation of a list of strings. -/
def joinStrings : List String → String
  | [] => ""
  | s :: rest => s ++ joinStrings rest

/-- The opaque syntect resource: grammar lookup with its plain-text
fallback entry, theme lookup with its default, and the stateful per-line
highlighting engine (`HighlightLines::new` / `highlight_line`). The
engine state is mutated by every call, successful or not, so the step
returns the new state alongside the possibly failing result. -/
structure SyntectEnv (Syn Theme σ : Type) where
  findSynByExtension : String → Option Syn
  findSynPlainText : Syn
  themes : String → Option Theme
  defaultTheme : Theme
  newHighlighter : Syn → Theme → σ
  highlightLine : σ → String → σ × Except Unit (List (Style × String))

/-- `LinesWithEndings`, worker: split at newline characters, each line
keeping its terminating newline; a trailing segment without a newline is
a final line. -/
def linesWithEndingsAux : List Char → List Char → List String
  | [], [] => []
  | [], acc => [⟨acc.reverse⟩]
  | c :: cs, acc =>
    if c = '\n' then
      (⟨acc.reverse ++ ['\n']⟩ : String) :: linesWithEndingsAux cs []
    else
      linesWithEndingsAux cs (c :: acc)

/-- `LinesWithEndings::from(content)`: the lines of the content, each
including its line ending. -/
def linesWithEndings (s : String) : List String :=
  linesWithEndingsAux s.data []

/-- The per-line loop of `highlight`: map `process_line` over the lines,
threading the engine state. A successful line becomes its escaped
regions plus a reset code; a failed line is emitted as unmodified text
and processing continues. -/
def runLines {Syn Theme σ : Type} (env : SyntectEnv Syn Theme σ) :
    σ → List String → σ × List Seg
  | st, [] => (st, [])
  | st, line :: rest =>
    let step := env.highlightLine st line
    match step.2 with
    | Except.ok ranges =>
        let r := runLines env step.1 rest
        (r.1, escapeSegs ranges ++ [Seg.colorCode resetCode] ++ r.2)
    | Except.error _ =>
        let r := runLines env step.1 rest
        (r.1, Seg.text line :: r.2)

/-- `highlight` from `src/highlight.rs`, at segment level: resolve the
grammar (falling back to plain text), resolve the theme (falling back to
the default), build the engine, process the lines. -/
def highlightSegs {Syn Theme σ : Type} (env : SyntectEnv Syn Theme σ)
    (content synHint themeName : String) : List Seg :=
  let syn := (env.findSynByExtension synHint).getD env.findSynPlainText
  let theme := (env.themes themeName).getD env.defaultTheme
  (runLines env (env.newHighlighter syn theme) (linesWithEndings content)).2

/-- `highlight` from `src/highlight.rs`: the rendered output string. -/
def highlight {Syn Theme σ : Type} (env : SyntectEnv Syn Theme σ)
    (content synHint themeName : String) : String :=
  renderSegs (highlightSegs env content synHint themeName)

/-- Syntect invariant: when `highlight_line` succeeds, the texts of the
returned styled regions concatenate back to the input line. -/
def SyntectEnv.Covering {Syn Theme σ : Type}
    (env : SyntectEnv Syn Theme σ) : Prop :=
  ∀ st line ranges, (env.highlightLine st line).2 = Except.ok ranges →
    joinStrings (ranges.map Prod.snd) = line

/-- A minimal concrete syntect environment in which every grammar lookup
misses and per-line highlighting always succeeds with a single styled
region covering the whole line (what syntect's plain-text grammar does). -/
def unitEnv : SyntectEnv Unit Unit Unit where
  findSynByExtension := fun _ => none
  findSynPlainText := ()
  themes := fun _ => none
  defaultTheme := ()
  newHighlighter := fun _ _ => ()
  highlightLine := fun _ line =>
    ((), Except.ok [({ r := 0, g := 0, b := 0 }, line)])

/-- A minimal concrete syntect environment in which per-line highlighting
fails on every single line. -/
def failEnv : SyntectEnv Unit Unit Unit where
  findSynByExtension := fun _ => none
  findSynPlainText := ()
  themes := fun _ => none
  defaultTheme := ()
  newHighlighter := fun _ _ => ()
  highlightLine := fun _ _ => ((), Except.error ())

/-! Basic lemmas about the entry list. -/

theorem lookupId_eraseId_self (es : List (Uuid × String)) (id : Uuid) :
    lookupId (eraseId es id) id = none := by
  induction es with
  | nil => rfl
  | cons e es ih =>
      by_cases h : e.1 = id <;> simp [eraseId, lookupId, h, ih]

theorem eraseId_of_lookupId_none (es : List (Uuid × String)) (id : Uuid)
    (h : lookupId es id = none) : eraseId es id = es := by
  induction es with
  | nil => rfl
  | cons e es ih =>
      by_cases he : e.1 = id
      · simp [lookupId, he] at h
      · simp [lookupId, he] at h
        simp [eraseId, he, ih h]

theorem lookupId_none_eraseId (es : List (Uuid × String)) (f j : Uuid)
    (h : lookupId es f = none) : lookupId (eraseId es j) f = none := by
  induction es with
  | nil => rfl
  | cons e es ih =>
      by_cases hf : e.1 = f
      · simp [lookupId, hf] at h
      · simp [lookupId, hf] at h
        by_cases hj : e.1 = j <;> simp [eraseId, lookupId, hj, hf, ih h]

/-! String and segment lemmas. -/

theorem string_mk_append (a b : List Char) :
    (⟨a⟩ : String) ++ (⟨b⟩ : String) = (⟨a ++ b⟩ : String) := rfl

theorem string_append_assoc (a b c : String) :
    a ++ b ++ c = a ++ (b ++ c) := by
  cases a; cases b; cases c
  simp [string_mk_append]

theorem string_append_empty_right (s : String) : s ++ "" = s := by
  cases s
  show (⟨_ ++ []⟩ : String) = _
  simp

theorem string_empty_append (s : String) : "" ++ s = s := rfl

theorem stripSegs_append (a b : List Seg) :
    stripSegs (a ++ b) = stripSegs a ++ stripSegs b := by
  induction a with
  | nil =>
      show stripSegs b = "" ++ stripSegs b
      cases h : stripSegs b
      simp [string_mk_append]
  | cons e a ih =>
      cases e with
      | colorCode s => simpa [stripSegs] using ih
      | text s => simp [stripSegs, ih, string_append_assoc]

theorem stripSegs_escapeSegs (ranges : List (Style × String)) :
    stripSegs (escapeSegs ranges) = joinStrings (ranges.map Prod.snd) := by
  induction ranges with
  | nil => rfl
  | cons r ranges ih =>
      simp [escapeSegs, joinStrings, stripSegs] at ih ⊢
      simp [ih]

theorem joinStrings_linesWithEndingsAux (cs : List Char) :
    ∀ acc, joinStrings (linesWithEndingsAux cs acc)
      = (⟨acc.reverse ++ cs⟩ : String) := by
  induction cs with
  | nil =>
      intro acc
      cases acc with
      | nil => rfl
      | cons c acc => simp [linesWithEndingsAux, joinStrings,
          string_append_empty_right]
  | cons c cs ih =>
      intro acc
      by_cases h : c = '\n'
      · subst h
        simp [linesWithEndingsAux, joinStrings, ih [], string_mk_append]
      · simp [linesWithEndingsAux, h, ih (c :: acc)]

theorem joinStrings_linesWithEndings (s : String) :
    joinStrings (linesWithEndings s) = s := by
  cases s
  simp [linesWithEndings, joinStrings_linesWithEndingsAux]

theorem stripSegs_runLines {Syn Theme σ : Type}
    (env : SyntectEnv Syn Theme σ) (hcov : env.Covering)
    (lines : List String) : ∀ st : σ,
    stripSegs (runLines env st lines).2 = joinStrings lines := by
  induction lines with
  | nil => intro st; rfl
  | cons line rest ih =>
      intro st
      show stripSegs (runLines env st (line :: rest)).2
        = line ++ joinStrings rest
      rw [runLines]
      cases h : (env.highlightLine st line).2 with
      | ok ranges =>
          simp [stripSegs_append, stripSegs_escapeSegs, ih,
            hcov st line ranges h, stripSegs, string_append_assoc,
            string_append_empty_right, string_empty_append]
      | error e =>
          simp [stripSegs, ih]

theorem stripSegs_highlightSegs {Syn Theme σ : Type}
    (env : SyntectEnv Syn Theme σ) (hcov : env.Covering)
    (content synHint themeName : String) :
    stripSegs (highlightSegs env content synHint themeName) = content := by
  rw [highlightSegs, stripSegs_runLines env hcov,
    joinStrings_linesWithEndings]

theorem renderSegs_runLines_error {Syn Theme σ : Type}
    (env : SyntectEnv Syn Theme σ)
    (hfail : ∀ (st : σ) (line : String),
      ∃ st2 : σ, env.highlightLine st line = (st2, Except.error ()))
    (lines : List String) : ∀ st : σ,
    renderSegs (runLines env st lines).2 = joinStrings lines := by
  induction lines with
  | nil => intro st; rfl
  | cons line rest ih =>
      intro st
      obtain ⟨st2, hstep⟩ := hfail st line
      simp only [runLines, hstep]
      simp [renderSegs, ih, joinStrings]

theorem lookupId_none_applyOps (f : Uuid) (ops : List StoreOp) :
    ∀ s : MockPasteStore, (∀ op ∈ ops, ¬ opCreates f op) →
    lookupId s.entries f = none →
    lookupId (applyOps s ops).entries f = none := by
  induction ops with
  | nil => intro s _ h; exact h
  | cons op rest ih =>
      intro s hops h
      have hop : ¬ opCreates f op := hops op (List.mem_cons_self op rest)
      have hrest : ∀ op' ∈ rest, ¬ opCreates f op' :=
        fun o ho => hops o (List.mem_cons_of_mem _ ho)
      refine ih _ hrest ?_
      cases op with
      | createOp j cnt =>
          have hj : ¬ j = f := fun hh => hop (by simp [opCreates, hh])
          show lookupId ((j, cnt) :: eraseId s.entries j) f = none
          simp only [lookupId, hj, if_false]
          exact lookupId_none_eraseId _ _ _ h
      | removeOp j =>
          exact lookupId_none_eraseId _ _ _ h

/-- Default value of `String`, matching Rust's `String::default()`. -/
theorem default_string : (default : String) = "" := rfl

theorem unitEnv_covering : unitEnv.Covering := by
  intro st line ranges h
  simp only [unitEnv] at h
  cases h
  simp [joinStrings, string_append_empty_right]

theorem failEnv_covering : failEnv.Covering := by
  intro st line ranges h
  simp [failEnv] at h

/-! Claim theorems. -/

/-- C1: Round trip — creating a paste with content C and then getting the
returned id yields a present paste whose content equals C, in the
in-memory test backend. -/
theorem create_get_roundtrip (s : MockPasteStore) (freshId : Uuid)
    (content : String) :
    (s.create freshId content).2.get (s.create freshId content).1.id
      = some { id := freshId, content := content } := by
  simp [MockPasteStore.create, MockPasteStore.get, lookupId]

/-- C1 witness: the round trip at a concrete store, id and content. -/
theorem create_get_roundtrip_witness :
    ((⟨[(3, "old")]⟩ : MockPasteStore).create 7 "hello").2.get
        ((⟨[(3, "old")]⟩ : MockPasteStore).create 7 "hello").1.id
      = some { id := 7, content := "hello" } :=
  create_get_roundtrip ⟨[(3, "old")]⟩ 7 "hello"

/-- C2: Deletion finality — after remove(create(C).id) succeeds (it
returns the created record), a get on that id is absent, and the id stays
absent under any further operation sequence that does not create that id
again. -/
theorem remove_create_finality (s : MockPasteStore) (f : Uuid)
    (c : String) (ops : List StoreOp)
    (hops : ∀ op ∈ ops, ¬ opCreates f op) :
    ((s.create f c).2.remove (s.create f c).1.id).1
        = some { id := f, content := c } ∧
    ((s.create f c).2.remove (s.create f c).1.id).2.get f = none ∧
    (applyOps ((s.create f c).2.remove (s.create f c).1.id).2 ops).get f
        = none := by
  have hbase : lookupId
      ((s.create f c).2.remove (s.create f c).1.id).2.entries f = none := by
    simp [MockPasteStore.create, MockPasteStore.remove, eraseId,
      lookupId_eraseId_self]
  refine ⟨?_, ?_, ?_⟩
  · simp [MockPasteStore.create, MockPasteStore.remove, lookupId]
  · simp [MockPasteStore.get, hbase]
  · simp [MockPasteStore.get, lookupId_none_applyOps f ops _ hops hbase]

/-- C2 witness: finality at a concrete store, with a later create under a
different id and a later remove of the same id. -/
theorem remove_create_finality_witness :
    ((⟨[]⟩ : MockPasteStore).create 0 "hi").2.remove
        ((⟨[]⟩ : MockPasteStore).create 0 "hi").1.id
      = (some { id := 0, content := "hi" }, ⟨[]⟩) ∧
    (applyOps (((⟨[]⟩ : MockPasteStore).create 0 "hi").2.remove
        ((⟨[]⟩ : MockPasteStore).create 0 "hi").1.id).2
      [StoreOp.createOp 1 "x", StoreOp.removeOp 0]).get 0 = none := by
  have h := remove_create_finality ⟨[]⟩ 0 "hi"
    [StoreOp.createOp 1 "x", StoreOp.removeOp 0] (by decide)
  exact ⟨by decide, h.2.2⟩

/-- C3: Remove on a non-live id returns absent and leaves the store
unchanged; the first remove returns exactly what get would (non-absent
iff the id was live), and every remove after the first returns absent. -/
theorem remove_absent_idempotent (s : MockPasteStore) (id : Uuid) :
    ((s.remove id).1 = s.get id) ∧
    (s.get id = none → s.remove id = (none, s)) ∧
    (∀ n : Nat, ((removeTimes s id (n + 1)).remove id).1 = none) := by
  refine ⟨rfl, ?_, ?_⟩
  · intro h
    have hl : lookupId s.entries id = none := by
      simpa [MockPasteStore.get] using h
    cases s with
    | mk es =>
        simp [MockPasteStore.remove, hl,
          eraseId_of_lookupId_none es id hl]
  · intro n
    show (((removeTimes s id n).remove id).2.remove id).1 = none
    simp [MockPasteStore.remove, lookupId_eraseId_self]

/-- C3 witness: a remove on a non-live id is a no-op, and the second
remove on a live id is absent, at concrete stores. -/
theorem remove_absent_idempotent_witness :
    ((⟨[(1, "a")]⟩ : MockPasteStore).remove 2 = (none, ⟨[(1, "a")]⟩)) ∧
    ((removeTimes ⟨[(5, "b")]⟩ 5 1).remove 5).1 = none :=
  ⟨(remove_absent_idempotent ⟨[(1, "a")]⟩ 2).2.1 rfl,
   (remove_absent_idempotent ⟨[(5, "b")]⟩ 5).2.2 0⟩

/-- C4 counterexample: at a concrete non-live id, the plain retrieve and
the delete handler answer 404 with an empty body, not with the body
"Paste not found" the claim states. -/
theorem notfound_body_cex :
    retrieve ⟨[]⟩ 0 = (statusNOT_FOUND, "") ∧
    retrieve ⟨[]⟩ 0 ≠ (statusNOT_FOUND, "Paste not found") ∧
    (removeHandler ⟨[]⟩ 0).1 = (statusNOT_FOUND, "") ∧
    (removeHandler ⟨[]⟩ 0).1 ≠ (statusNOT_FOUND, "Paste not found") := by
  refine ⟨rfl, ?_, rfl, ?_⟩ <;> decide

/-- C4 amended: for every plain-retrieve or delete request whose id is
not live, the handler returns status NOT FOUND with an empty body (the
Default of the body type); a delete whose id is live returns status OK
with body exactly "Deleted!". -/
theorem handler_notfound_contract (s : MockPasteStore) (id : Uuid) :
    (s.get id = none →
      retrieve s id = (statusNOT_FOUND, "") ∧
      (removeHandler s id).1 = (statusNOT_FOUND, "")) ∧
    (∀ p : Paste, s.get id = some p →
      (removeHandler s id).1 = (statusOK, "Deleted!")) := by
  constructor
  · intro h
    have hl : lookupId s.entries id = none := by
      simpa [MockPasteStore.get] using h
    constructor <;>
      simp [retrieve, removeHandler, MockPasteStore.get,
        MockPasteStore.remove, hl, unwrapOrNotFound, default_string,
        statusOK, statusNOT_FOUND]
  · intro p hp
    cases hl : lookupId s.entries id with
    | none => simp [MockPasteStore.get, hl] at hp
    | some c =>
        simp [removeHandler, MockPasteStore.remove, hl, unwrapOrNotFound]

/-- C4 amended witness: the not-found branch at an empty store and the
live-delete branch at a one-entry store, at concrete inputs. -/
theorem handler_notfound_contract_witness :
    retrieve ⟨[]⟩ 9 = (statusNOT_FOUND, "") ∧
    (removeHandler ⟨[(9, "x")]⟩ 9).1 = (statusOK, "Deleted!") :=
  ⟨((handler_notfound_contract ⟨[]⟩ 9).1 rfl).1,
   (handler_notfound_contract ⟨[(9, "x")]⟩ 9).2
     { id := 9, content := "x" } (by decide)⟩

/-- C5: a successful create answers status CREATED with body exactly
"{scheme}://{host}/{id}" where the scheme comes from the scheme rule and
the id is the id of the newly created paste — which is indeed stored
under that id with the submitted body. -/
theorem upload_response (s : MockPasteStore) (freshId : Uuid)
    (host body : String) :
    (upload s freshId host body).1
      = (statusCREATED,
          scheme host ++ "://" ++ host ++ "/"
            ++ uuidRender ((s.create freshId body).1.id)) ∧
    (upload s freshId host body).2.get ((s.create freshId body).1.id)
      = some { id := freshId, content := body } := by
  constructor
  · rfl
  · simp [upload, MockPasteStore.create, MockPasteStore.get, lookupId]

/-- C5 witness: the upload response at a concrete store, id, host and
body. -/
theorem upload_response_witness :
    (upload ⟨[]⟩ 4 "example.com" "data").1
      = (statusCREATED, scheme "example.com" ++ "://" ++ "example.com"
          ++ "/" ++ uuidRender 4) :=
  (upload_response ⟨[]⟩ 4 "example.com" "data").1

/-- C6: the scheme function is a pure, total function of the host string
returning "http" when the host contains "127.0.0.1" or "localhost" as a
substring and "https" otherwise. -/
theorem scheme_loopback_rule (host : String) :
    (("127.0.0.1".data <:+: host.data ∨ "localhost".data <:+: host.data) →
      scheme host = "http") ∧
    (¬ ("127.0.0.1".data <:+: host.data ∨ "localhost".data <:+: host.data) →
      scheme host = "https") := by
  constructor
  · intro h
    rcases h with h | h <;> simp [scheme, strContains, h]
  · intro h
    rw [not_or] at h
    simp [scheme, strContains, h.1, h.2]

/-- C6 witness: a loopback host gets "http", an ordinary host "https". -/
theorem scheme_loopback_rule_witness :
    ("localhost".data <:+: "localhost:8000".data) ∧
    scheme "localhost:8000" = "http" ∧
    (¬ ("127.0.0.1".data <:+: "example.com".data ∨
        "localhost".data <:+: "example.com".data)) ∧
    scheme "example.com" = "https" :=
  ⟨by decide,
   (scheme_loopback_rule "localhost:8000").1 (Or.inr (by decide)),
   by decide,
   (scheme_loopback_rule "example.com").2 (by decide)⟩

/-- C7: when the syntax hint matches no loaded grammar, highlighting
falls back to the plain-text grammar, and the output with the inserted
color codes removed equals the content unchanged (given the syntect
invariant that successful per-line highlights cover their line). -/
theorem highlight_unknown_syn_fallback {Syn Theme σ : Type}
    (env : SyntectEnv Syn Theme σ) (content hint themeName : String)
    (hmiss : env.findSynByExtension hint = none) (hcov : env.Covering) :
    highlightSegs env content hint themeName
      = (runLines env
          (env.newHighlighter env.findSynPlainText
            ((env.themes themeName).getD env.defaultTheme))
          (linesWithEndings content)).2 ∧
    stripSegs (highlightSegs env content hint themeName) = content := by
  constructor
  · rw [highlightSegs, hmiss, Option.getD_none]
  · exact stripSegs_highlightSegs env hcov content hint themeName

/-- C7 witness: the fallback render of a two-line content under an
environment with no loaded grammars, stripped, is the content. -/
theorem highlight_unknown_syn_fallback_witness :
    stripSegs (highlightSegs unitEnv "ab\ncd" "no-such-lang" "any") =
      "ab\ncd" :=
  (highlight_unknown_syn_fallback unitEnv "ab\ncd" "no-such-lang" "any"
    rfl unitEnv_covering).2

/-- C8: the highlighter works line by line and tolerates per-line
failures: whatever lines fail, the stripped output is the content with
all lines in original order (given the covering invariant on successful
lines), and if every line fails the output is the content verbatim —
no error is ever propagated. -/
theorem highlight_per_line_tolerance {Syn Theme σ : Type}
    (env : SyntectEnv Syn Theme σ) (content hint themeName : String)
    (hcov : env.Covering) :
    stripSegs (highlightSegs env content hint themeName) = content ∧
    ((∀ (st : σ) (line : String),
        ∃ st2 : σ, env.highlightLine st line = (st2, Except.error ())) →
      highlight env content hint themeName = content) := by
  constructor
  · exact stripSegs_highlightSegs env hcov content hint themeName
  · intro hfail
    rw [highlight, highlightSegs, renderSegs_runLines_error env hfail,
      joinStrings_linesWithEndings]

/-- C8 witness: under an environment whose per-line highlighting always
fails, the rendered output of a two-line content is the content itself. -/
theorem highlight_per_line_tolerance_witness :
    highlight failEnv "ab\ncd" "rs" "base16-ocean.dark" = "ab\ncd" :=
  (highlight_per_line_tolerance failEnv "ab\ncd" "rs" "base16-ocean.dark"
    failEnv_covering).2 (fun _ _ => ⟨(), rfl⟩)

/-- C9: the Paste record returned by create itself echoes the submitted
content (and carries the freshly drawn id). -/
theorem create_returns_content (s : MockPasteStore) (freshId : Uuid)
    (content : String) :
    (s.create freshId content).1 = { id := freshId, content := content } :=
  rfl

/-- C9 witness: the created record at a concrete store, id and content. -/
theorem create_returns_content_witness :
    ((⟨[]⟩ : MockPasteStore).create 2 "abc").1 = { id := 2, content := "abc" } :=
  create_returns_content ⟨[]⟩ 2 "abc"

/-- C10: the Option-to-response helper maps Some(v) to (OK, v) and None
to (NOT FOUND, the default value of the body type — the empty string for
String bodies). -/
theorem unwrapOrNotFound_contract {T : Type} [Inhabited T] (v : T) :
    unwrapOrNotFound (some v) = (statusOK, v) ∧
    unwrapOrNotFound (none : Option T) = (statusNOT_FOUND, (default : T)) ∧
    unwrapOrNotFound (none : Option String) = (statusNOT_FOUND, "") :=
  ⟨rfl, rfl, rfl⟩

/-- C10 witness: the helper at a concrete present and absent value. -/
theorem unwrapOrNotFound_contract_witness :
    unwrapOrNotFound (some "x") = (statusOK, "x") ∧
    unwrapOrNotFound (none : Option String) = (statusNOT_FOUND, "") :=
  ⟨(unwrapOrNotFound_contract "x").1, (unwrapOrNotFound_contract "x").2.2⟩

end Pstrs
